import Mathlib

/-!
Verification of the domain-model logic of `cascade.py` (Nalian79/many-to-many).

Strings are modelled as `List Char`.  Python's `str.replace(c, '')` for a
single character `c` removes every occurrence of `c`, so it is a filter.
A `Person` row is a record of its mapped columns; the `phone` property pair
is modelled as a pure state-transition function (setter) and a fallible
reader (getter), since a raised exception leaves the object unchanged.
-/

/-- Python `s.replace(c, '')` for a one-character pattern `c`:
removes every occurrence of `c` from the string. -/
def removeAll (c : Char) (s : List Char) : List Char :=
  s.filter (fun x => x ≠ c)

/-- Python slice `s[a:b]` for `0 ≤ a ≤ b` on a string. -/
def pySlice (s : List Char) (a b : Nat) : List Char :=
  (s.take b).drop a

/-- The mapped columns of the `person` table (`cascade.py` lines 132-138):
`first_name` and `last_name` are non-nullable, `age` and `_phone` are
nullable columns, hence `Option`. -/
structure Person where
  first_name : List Char
  last_name : List Char
  age : Option Int
  phoneCol : Option (List Char)
deriving DecidableEq, Repr

/-- The exception message raised by the phone setter (`cascade.py` line 161). -/
def phoneLengthError : String := "Phone number not 10 digits long"

/-- The error raised by Python when the getter slices `None`
(reading `phone` before any successful set leaves `num = None`
and `num[0:3]` raises a `TypeError`). -/
def noneSubscriptError : String := "TypeError: NoneType object is not subscriptable"

/-- `Person.phone` setter (`cascade.py` lines 152-164): remove any hyphens,
then remove any spaces; if the result is not exactly 10 characters long,
raise (returning the unchanged row together with the exception message);
otherwise store the stripped string in the `_phone` column.
The result is the row after the call, paired with the raised exception. -/
def phoneSet (p : Person) (value : List Char) : Person × Option String :=
  let number := removeAll '-' value
  let number := removeAll ' ' number
  if number.length ≠ 10 then
    (p, some phoneLengthError)
  else
    ({ p with phoneCol := some number }, none)

/-- `Person.phone` getter (`cascade.py` lines 143-149): read the `_phone`
column and return `"%s-%s-%s" % (num[0:3], num[3:6], num[6:10])`.
When the column is `NULL` the slice `num[0:3]` raises a `TypeError`. -/
def phoneGet (p : Person) : Except String (List Char) :=
  match p.phoneCol with
  | none => Except.error noneSubscriptError
  | some num =>
      Except.ok (pySlice num 0 3 ++ ('-' :: pySlice num 3 6) ++ ('-' :: pySlice num 6 10))

/-- `Person.full_name` (`cascade.py` lines 166-168):
`self.first_name + ' ' + self.last_name`. -/
def full_name (p : Person) : List Char :=
  p.first_name ++ [' '] ++ p.last_name

/-- Apply a sequence of phone-setter calls to a row; a call that raises
leaves the row as it was (the only write is guarded by the length check). -/
def runSetters (p : Person) (vs : List (List Char)) : Person :=
  vs.foldl (fun q v => (phoneSet q v).1) p

/-- The stored-phone invariant: whenever the `_phone` column is present it
is exactly 10 characters long and contains no hyphen or space. -/
def phoneInv (p : Person) : Prop :=
  ∀ num, p.phoneCol = some num → num.length = 10 ∧ '-' ∉ num ∧ ' ' ∉ num

example :
    phoneSet ⟨[], [], none, none⟩ ("555-555-5555".toList) =
      (⟨[], [], none, some ("5555555555".toList)⟩, none) := by decide

example :
    phoneGet ⟨[], [], none, some ("5555555555".toList)⟩ =
      Except.ok ("555-555-5555".toList) := by rfl

/-! ## The `pet_person_association` table -/

/-- A row of the `pet_person_association` table (`cascade.py` lines 183-204):
non-nullable foreign keys `pet_id` and `person_id`, and a nullable integer
column `years`. -/
structure PetPersonAssociation where
  pet_id : Nat
  person_id : Nat
  years : Option Int
deriving DecidableEq, Repr

/-- Two rows agree on the column pair covered by
`UniqueConstraint('pet_id', 'person_id')` (`cascade.py` line 190). -/
def samePair (r s : PetPersonAssociation) : Bool :=
  r.pet_id == s.pet_id && r.person_id == s.person_id

/-- Some row of the table has the same `(pet_id, person_id)` pair as `r`. -/
def hasPair (table : List PetPersonAssociation) (r : PetPersonAssociation) : Bool :=
  table.any (fun s => samePair s r)

/-- No two rows of the table share a `(pet_id, person_id)` pair: the state
the declared `UniqueConstraint` keeps the table in. -/
def pairUnique : List PetPersonAssociation → Bool
  | [] => true
  | r :: rest => !(hasPair rest r) && pairUnique rest

/-- The integrity error the persistence engine reports when the declared
`person_pet_uniqueness_constraint` is violated at commit time. -/
def uniqueViolation : String := "IntegrityError: person_pet_uniqueness_constraint"

/-- Modelled from the spec: the external persistence engine (not part of
this repository) enforces the `UniqueConstraint('pet_id', 'person_id')`
declared at `cascade.py` line 190 when a pending row is written at commit
time — inserting a row whose `(pet_id, person_id)` pair already appears in
the table fails with an integrity error. -/
def insertAssoc (table : List PetPersonAssociation) (r : PetPersonAssociation) :
    Except String (List PetPersonAssociation) :=
  if hasPair table r then Except.error uniqueViolation
  else Except.ok (table ++ [r])

/-- Modelled from the spec: committing a batch of pending association rows
writes them one at a time, each checked against the table so far; the
commit is atomic (all-or-nothing), so any violation fails the whole batch. -/
def insertAll (table : List PetPersonAssociation) :
    List PetPersonAssociation → Except String (List PetPersonAssociation)
  | [] => Except.ok table
  | r :: rest =>
      match insertAssoc table r with
      | Except.error e => Except.error e
      | Except.ok t => insertAll t rest

/-- Modelled from the spec: the committed table reachable after a sequence
of commit attempts; a failed commit leaves the committed state unchanged
(the unit of work is rolled back). -/
def applyCommits (table : List PetPersonAssociation)
    (batches : List (List PetPersonAssociation)) : List PetPersonAssociation :=
  batches.foldl
    (fun st b =>
      match insertAll st b with
      | Except.ok t => t
      | Except.error _ => st)
    table

/-- Number of rows of the table sharing the `(pet_id, person_id)` pair of `r`. -/
def countPair (table : List PetPersonAssociation) (r : PetPersonAssociation) : Nat :=
  table.countP (fun s => samePair s r)

/-! ## The `Person.pets` property and `Person.has_pet`

The bodies of `Person.pets` (`cascade.py` line 172) and `Person.has_pet`
(line 175) iterate over `self.pet_assocs`.  Python resolves that name by
attribute lookup on the instance, so the lookup is modelled explicitly by
name over the association-list attributes the mapping actually defines. -/

/-- The attribute names defined on a mapped `Person` instance by
`cascade.py`: the five columns (lines 134-138), the `phone`, `full_name`
and `pets` properties and the `has_pet` method (lines 143-178), the
`pets` backref from `Pet.people` (line 127), the `pet_associations`
backref from `PetPersonAssociation.person` (line 203), and the
`pet_nickname` backref from `PetNicknames.person` (line 226). -/
def personAttributeNames : List String :=
  ["id", "first_name", "last_name", "age", "_phone",
   "phone", "full_name", "pets", "has_pet",
   "pet_associations", "pet_nickname"]

/-- A mapped `Person` instance together with its only association-list
valued attribute: the `pet_associations` collection created by the
backref at `cascade.py` line 203 (one element per
`pet_person_association` row referencing the person). -/
structure MappedPerson where
  row : Person
  pet_associations : List PetPersonAssociation
deriving Repr

/-- Python attribute lookup on a mapped `Person` instance, restricted to
attributes holding a list of association rows: only `pet_associations`
(the backref name declared at `cascade.py` line 203) resolves; any other
name raises `AttributeError` (`none`). -/
def getAssocAttr (p : MappedPerson) (name : String) :
    Option (List PetPersonAssociation) :=
  if name = "pet_associations" then some p.pet_associations else none

/-- The attribute name the bodies of `Person.pets` and `Person.has_pet`
actually read (`cascade.py` lines 172 and 175). -/
def petAssocsName : String := "pet_assocs"

/-- The message of the `AttributeError` Python raises for that read. -/
def petAssocsAttributeError : String :=
  "AttributeError: Person object has no attribute pet_assocs"

/-- `Person.pets` property (`cascade.py` lines 170-172):
`[assoc.pet for assoc in self.pet_assocs]` — look up the attribute named
`pet_assocs` and return one pet (identified by its foreign key) per
association row, or raise if the lookup fails. -/
def petsProperty (p : MappedPerson) : Except String (List Nat) :=
  match getAssocAttr p petAssocsName with
  | none => Except.error petAssocsAttributeError
  | some assocs => Except.ok (assocs.map (fun a => a.pet_id))

/-- `Person.has_pet` loop (`cascade.py` lines 175-178): return the `years`
of the first association row whose pet matches, else `None`. -/
def findYears : List PetPersonAssociation → Nat → Option (Option Int)
  | [], _ => none
  | a :: rest, pet => if a.pet_id == pet then some a.years else findYears rest pet

/-- `Person.has_pet` (`cascade.py` lines 174-178): iterate over the
attribute named `pet_assocs`; on a matching row return its `years`,
otherwise return `None`; raise if the attribute lookup fails.
`Except.ok (some y)` is a returned `years` value, `Except.ok none` is a
returned `None`. -/
def has_pet (p : MappedPerson) (pet : Nat) : Except String (Option (Option Int)) :=
  match getAssocAttr p petAssocsName with
  | none => Except.error petAssocsAttributeError
  | some assocs => Except.ok (findYears assocs pet)

/-- The intended reading of `Person.pets`, with the attribute name slip
repaired: iterate over the `pet_associations` backref collection itself. -/
def petsIntended (p : MappedPerson) : List Nat :=
  p.pet_associations.map (fun a => a.pet_id)

/-- The intended reading of `Person.has_pet`, with the attribute name slip
repaired: iterate over the `pet_associations` backref collection itself. -/
def hasPetIntended (p : MappedPerson) (pet : Nat) : Option (Option Int) :=
  findYears p.pet_associations pet

/-- A fresh `Person` row, before any column has been written. -/
def blankPerson : Person :=
  ⟨[], [], none, none⟩

/-! ## Theorems -/

/-- C1: for every input string, the phone setter removes all hyphens, then
all spaces, and when exactly 10 characters remain it stores that string
verbatim (no exception is raised); nothing but the resulting length is
checked, so non-digit characters pass through. -/
theorem phoneSet_stores_stripped_verbatim (p : Person) (value : List Char)
    (h : (removeAll ' ' (removeAll '-' value)).length = 10) :
    phoneSet p value =
      ({ p with phoneCol := some (removeAll ' ' (removeAll '-' value)) }, none) := by
  simp [phoneSet, h]

/-- Witness for C1, on an input containing non-digit characters: they are
not rejected, only stripped of hyphens and spaces and length-checked. -/
theorem phoneSet_stores_stripped_verbatim_witness :
    (removeAll ' ' (removeAll '-' ("ab3-ca1 23zz".toList))).length = 10 ∧
    phoneSet blankPerson ("ab3-ca1 23zz".toList) =
      (⟨[], [], none, some ("ab3ca123zz".toList)⟩, none) :=
  ⟨by decide,
    (phoneSet_stores_stripped_verbatim blankPerson ("ab3-ca1 23zz".toList)
      (by decide)).trans (by decide)⟩

/-- C2: for every input string whose length after stripping hyphens and
spaces is not 10, the setter raises the validation error and the row —
in particular any previously stored phone value — is unchanged. -/
theorem phoneSet_wrong_length_raises (p : Person) (value : List Char)
    (h : (removeAll ' ' (removeAll '-' value)).length ≠ 10) :
    phoneSet p value = (p, some phoneLengthError) := by
  simp [phoneSet, h]

/-- Witness for C2: a 9-digit input fails and leaves the previously stored
10-digit value in place. -/
theorem phoneSet_wrong_length_raises_witness :
    (removeAll ' ' (removeAll '-' ("555-555-555".toList))).length ≠ 10 ∧
    phoneSet ⟨[], [], none, some ("5554443333".toList)⟩ ("555-555-555".toList) =
      (⟨[], [], none, some ("5554443333".toList)⟩, some phoneLengthError) :=
  ⟨by decide,
    phoneSet_wrong_length_raises ⟨[], [], none, some ("5554443333".toList)⟩
      ("555-555-555".toList) (by decide)⟩

/-- C6: the full-name accessor returns the first name, a single space, and
the last name; a Person named Tom Smith exposes exactly "Tom Smith". -/
theorem full_name_first_space_last (p : Person) :
    full_name p = p.first_name ++ (' ' :: p.last_name) ∧
    full_name ⟨"Tom".toList, "Smith".toList, some 52, none⟩ = "Tom Smith".toList :=
  ⟨by simp [full_name], by decide⟩

/-- C10: reading the phone getter of a Person whose phone has never been
successfully set (stored column absent) raises an error: the getter slices
the stored value with no presence check. -/
theorem phoneGet_absent_raises (p : Person) (h : p.phoneCol = none) :
    phoneGet p = Except.error noneSubscriptError := by
  simp [phoneGet, h]

/-- Witness for C10: a fresh Person's getter raises. -/
theorem phoneGet_absent_raises_witness :
    blankPerson.phoneCol = none ∧
    phoneGet blankPerson = Except.error noneSubscriptError :=
  ⟨rfl, phoneGet_absent_raises blankPerson rfl⟩

/-- C3: for a stored 10-character value, the getter splits it at offsets
3 and 6 into segments of lengths 3, 3 and 4 and joins them with hyphens. -/
theorem phoneGet_splits_3_3_4 (p : Person) (num : List Char)
    (hp : p.phoneCol = some num) (hlen : num.length = 10) :
    ∃ a b c, num = a ++ b ++ c ∧ a.length = 3 ∧ b.length = 3 ∧ c.length = 4 ∧
      phoneGet p = Except.ok (a ++ ('-' :: b) ++ ('-' :: c)) := by
  refine ⟨num.take 3, (num.drop 3).take 3, num.drop 6, ?_, ?_, ?_, ?_, ?_⟩
  · conv_lhs => rw [(List.take_append_drop 3 num).symm]
    rw [List.append_assoc]
    congr 1
    conv_lhs => rw [(List.take_append_drop 3 (num.drop 3)).symm]
    rw [List.drop_drop]
  · simp [hlen]
  · simp [hlen]
  · simp [hlen]
  · have h0 : pySlice num 0 3 = num.take 3 := by
      simp [pySlice]
    have h6 : pySlice num 3 6 = (num.drop 3).take 3 := by
      simp [pySlice, List.drop_take]
    have h10 : pySlice num 6 10 = num.drop 6 := by
      simp [pySlice, List.take_of_length_le (le_of_eq hlen)]
    simp only [phoneGet, hp, h0, h6, h10]

/-- Witness for C3, at the stored value of the demo person Tom. -/
theorem phoneGet_splits_3_3_4_witness :
    (⟨"Tom".toList, "Smith".toList, some 52, some ("5555555555".toList)⟩ :
        Person).phoneCol = some ("5555555555".toList) ∧
    ("5555555555".toList).length = 10 ∧
    (∃ a b c, "5555555555".toList = a ++ b ++ c ∧ a.length = 3 ∧ b.length = 3 ∧
      c.length = 4 ∧
      phoneGet ⟨"Tom".toList, "Smith".toList, some 52, some ("5555555555".toList)⟩ =
        Except.ok (a ++ ('-' :: b) ++ ('-' :: c))) :=
  ⟨rfl, by decide,
    phoneGet_splits_3_3_4 ⟨"Tom".toList, "Smith".toList, some 52,
      some ("5555555555".toList)⟩ ("5555555555".toList) rfl (by decide)⟩

/-- C4: two accepted inputs whose hyphen/space-stripped forms agree (the
same digits with separators inserted differently) drive the setter to the
same result, and a subsequent getter read returns the same display string. -/
theorem phone_roundtrip_separator_independent (p : Person) (x y : List Char)
    (hxy : removeAll ' ' (removeAll '-' x) = removeAll ' ' (removeAll '-' y))
    (hlen : (removeAll ' ' (removeAll '-' x)).length = 10) :
    phoneSet p x = phoneSet p y ∧
      phoneGet (phoneSet p x).1 = phoneGet (phoneSet p y).1 := by
  have h1 : phoneSet p x = phoneSet p y := by
    simp only [phoneSet]
    rw [hxy]
  exact ⟨h1, by rw [h1]⟩

/-- Witness for C4: "555-555-5555" and "555 555 5555" store and display
identically, and "5555555555" stores the same canonical value, all three
displaying as "555-555-5555". -/
theorem phone_roundtrip_separator_independent_witness :
    (removeAll ' ' (removeAll '-' ("555-555-5555".toList)) =
        removeAll ' ' (removeAll '-' ("555 555 5555".toList))) ∧
    ((removeAll ' ' (removeAll '-' ("555-555-5555".toList))).length = 10) ∧
    (phoneSet blankPerson ("555-555-5555".toList) =
        phoneSet blankPerson ("555 555 5555".toList) ∧
      phoneGet (phoneSet blankPerson ("555-555-5555".toList)).1 =
        phoneGet (phoneSet blankPerson ("555 555 5555".toList)).1) ∧
    (phoneSet blankPerson ("555-555-5555".toList)).1.phoneCol =
      some ("5555555555".toList) ∧
    (phoneSet blankPerson ("5555555555".toList)).1.phoneCol =
      some ("5555555555".toList) ∧
    phoneGet (phoneSet blankPerson ("5555555555".toList)).1 =
      Except.ok ("555-555-5555".toList) :=
  ⟨by decide, by decide,
    phone_roundtrip_separator_independent blankPerson ("555-555-5555".toList)
      ("555 555 5555".toList) (by decide) (by decide),
    by decide, by decide, by rfl⟩

theorem not_mem_removeAll (c : Char) (s : List Char) : c ∉ removeAll c s := by
  simp [removeAll]

theorem mem_of_mem_removeAll {c d : Char} {s : List Char}
    (h : d ∈ removeAll c s) : d ∈ s :=
  List.mem_of_mem_filter h

theorem phoneSet_preserves_inv (p : Person) (v : List Char) (h : phoneInv p) :
    phoneInv (phoneSet p v).1 := by
  intro num hnum
  by_cases hlen : (removeAll ' ' (removeAll '-' v)).length = 10
  · simp only [phoneSet, hlen, ne_eq, not_true_eq_false, if_false] at hnum
    simp only [Option.some.injEq] at hnum
    subst hnum
    refine ⟨hlen, ?_, ?_⟩
    · intro hmem
      exact absurd (mem_of_mem_removeAll hmem) (not_mem_removeAll '-' v)
    · exact not_mem_removeAll ' ' _
  · simp only [phoneSet, hlen, ne_eq, not_false_eq_true, if_true] at hnum
    exact h num hnum

/-- C5: the stored-phone invariant — present implies exactly 10 characters
and no hyphen or space — holds after any sequence of setter calls
(successful or failing) starting from a row that satisfies it; the setter
is the only code path that writes the stored value. -/
theorem phoneInv_after_any_setters (p : Person) (vs : List (List Char))
    (h : phoneInv p) : phoneInv (runSetters p vs) := by
  induction vs generalizing p with
  | nil => exact h
  | cons v rest ih => exact ih (phoneSet p v).1 (phoneSet_preserves_inv p v h)

/-- Witness for C5: a fresh row satisfies the invariant, and so does the
row after a successful set, a failing set, and another successful set. -/
theorem phoneInv_after_any_setters_witness :
    phoneInv blankPerson ∧
    (runSetters blankPerson
        ["555-555-5555".toList, "123".toList, "555 243 9988".toList]).phoneCol =
      some ("5552439988".toList) ∧
    phoneInv (runSetters blankPerson
      ["555-555-5555".toList, "123".toList, "555 243 9988".toList]) := by
  have hblank : phoneInv blankPerson := by
    intro num hnum
    simp [blankPerson] at hnum
  exact ⟨hblank, by decide,
    phoneInv_after_any_setters blankPerson
      ["555-555-5555".toList, "123".toList, "555 243 9988".toList] hblank⟩

theorem samePair_iff (r s : PetPersonAssociation) :
    samePair r s = true ↔ r.pet_id = s.pet_id ∧ r.person_id = s.person_id := by
  simp [samePair]

theorem samePair_comm (r s : PetPersonAssociation) :
    samePair r s = samePair s r := by
  rw [Bool.eq_iff_iff, samePair_iff, samePair_iff]
  exact ⟨fun h => ⟨h.1.symm, h.2.symm⟩, fun h => ⟨h.1.symm, h.2.symm⟩⟩

theorem samePair_trans {r s t : PetPersonAssociation}
    (h1 : samePair r s = true) (h2 : samePair s t = true) :
    samePair r t = true := by
  rw [samePair_iff] at h1 h2 ⊢
  exact ⟨h1.1.trans h2.1, h1.2.trans h2.2⟩

theorem hasPair_iff (t : List PetPersonAssociation) (r : PetPersonAssociation) :
    hasPair t r = true ↔ ∃ s ∈ t, samePair s r = true := by
  simp [hasPair]

theorem pairUnique_cons (x : PetPersonAssociation)
    (xs : List PetPersonAssociation) :
    pairUnique (x :: xs) = (!(hasPair xs x) && pairUnique xs) := rfl

theorem pairUnique_append_singleton (t : List PetPersonAssociation)
    (r : PetPersonAssociation) (h : pairUnique t = true)
    (hr : hasPair t r = false) : pairUnique (t ++ [r]) = true := by
  induction t with
  | nil => rfl
  | cons x xs ih =>
      rw [pairUnique_cons, Bool.and_eq_true, Bool.not_eq_true'] at h
      have hx : samePair x r = false ∧ hasPair xs r = false := by
        rw [← Bool.not_eq_true] at hr
        simp only [hasPair, List.any_cons, Bool.or_eq_true, not_or,
          Bool.not_eq_true] at hr
        exact ⟨hr.1, by rw [← Bool.not_eq_true]; simp [hasPair, hr.2]⟩
      rw [List.cons_append, pairUnique_cons, Bool.and_eq_true,
        Bool.not_eq_true']
      refine ⟨?_, ih h.2 hx.2⟩
      simp only [hasPair, List.any_append, Bool.or_eq_false_iff]
      exact ⟨h.1, by simp [List.any_cons, samePair_comm r x, hx.1]⟩

theorem insertAll_pairUnique (pending : List PetPersonAssociation) :
    ∀ t t', pairUnique t = true → insertAll t pending = Except.ok t' →
      pairUnique t' = true := by
  induction pending with
  | nil =>
      intro t t' h hok
      simp only [insertAll] at hok
      cases hok
      exact h
  | cons r rest ih =>
      intro t t' h hok
      simp only [insertAll, insertAssoc] at hok
      by_cases hdup : hasPair t r = true
      · simp [hdup] at hok
      · rw [Bool.not_eq_true] at hdup
        simp only [hdup, Bool.false_eq_true, if_false] at hok
        exact ih (t ++ [r]) t' (pairUnique_append_singleton t r h hdup) hok

theorem applyCommits_pairUnique (batches : List (List PetPersonAssociation)) :
    ∀ t, pairUnique t = true → pairUnique (applyCommits t batches) = true := by
  induction batches with
  | nil => intro t h; exact h
  | cons b rest ih =>
      intro t h
      have hstep : applyCommits t (b :: rest) =
          applyCommits
            (match insertAll t b with
              | Except.ok t1 => t1
              | Except.error _ => t) rest := rfl
      rw [hstep]
      cases hins : insertAll t b with
      | ok t1 =>
          simp only [hins]
          exact ih t1 (insertAll_pairUnique b t t1 h hins)
      | error e =>
          simp only [hins]
          exact ih t h

theorem countPair_le_one (t : List PetPersonAssociation)
    (h : pairUnique t = true) (r : PetPersonAssociation) :
    countPair t r ≤ 1 := by
  induction t with
  | nil => exact Nat.zero_le 1
  | cons x xs ih =>
      rw [pairUnique_cons, Bool.and_eq_true, Bool.not_eq_true'] at h
      simp only [countPair, List.countP_cons]
      by_cases hx : samePair x r = true
      · have hzero : List.countP (fun s => samePair s r) xs = 0 := by
          rw [List.countP_eq_zero]
          intro s hs hsr
          have hsx : samePair s x = true :=
            samePair_trans hsr (by rw [samePair_comm]; exact hx)
          have : hasPair xs x = true := by
            rw [hasPair_iff]
            exact ⟨s, hs, hsx⟩
          rw [h.1] at this
          exact Bool.false_ne_true this
        simp [hzero, hx]
      · rw [Bool.not_eq_true] at hx
        simp only [hx, Bool.false_eq_true, if_false, Nat.add_zero]
        exact ih h.2

/-- C7: the (pet, person) pair of `pet_person_association` rows is unique
— committing a second row with a pair already in the table fails with the
declared constraint's integrity error, and every committed state reachable
from the empty table holds at most one row per pair. -/
theorem assoc_pair_unique (committed : List PetPersonAssociation)
    (r : PetPersonAssociation) (rest : List PetPersonAssociation)
    (batches : List (List PetPersonAssociation)) (q : PetPersonAssociation)
    (hdup : hasPair committed r = true) :
    insertAll committed (r :: rest) = Except.error uniqueViolation ∧
    countPair (applyCommits [] batches) q ≤ 1 := by
  constructor
  · simp [insertAll, insertAssoc, hdup]
  · exact countPair_le_one (applyCommits [] batches)
      (applyCommits_pairUnique batches [] rfl) q

/-- Witness for C7: with the row (pet 1, person 2) committed, committing a
second row with the same pair (but different years) fails; and after two
commit attempts — the second a duplicate that rolls back — the reachable
state has at most one row for the (1, 2) pair. -/
theorem assoc_pair_unique_witness :
    hasPair [⟨1, 2, some 3⟩] ⟨1, 2, some 5⟩ = true ∧
    (insertAll [⟨1, 2, some 3⟩] [⟨1, 2, some 5⟩] =
        Except.error uniqueViolation ∧
      countPair (applyCommits [] [[⟨1, 2, some 3⟩], [⟨1, 2, some 5⟩]])
        ⟨1, 2, some 3⟩ ≤ 1) ∧
    applyCommits [] [[⟨1, 2, some 3⟩], [⟨1, 2, some 5⟩]] = [⟨1, 2, some 3⟩] :=
  ⟨by decide,
    assoc_pair_unique [⟨1, 2, some 3⟩] ⟨1, 2, some 5⟩ []
      [[⟨1, 2, some 3⟩], [⟨1, 2, some 5⟩]] ⟨1, 2, some 3⟩ (by decide),
    by decide⟩

/-- C8 (code reality): the body of the `Person.pets` property reads the
attribute `pet_assocs`, a name no declaration in `cascade.py` defines (the
association backref is `pet_associations`), so evaluating the property
raises `AttributeError` instead of returning the associated pets. -/
theorem petsProperty_attribute_error (p : MappedPerson) :
    personAttributeNames.contains petAssocsName = false ∧
    petsProperty p = Except.error petAssocsAttributeError := by
  exact ⟨by decide, rfl⟩

/-- C9 (code reality): `Person.has_pet` iterates `self.pet_assocs`, a name
no declaration in `cascade.py` defines, so every call raises
`AttributeError` instead of returning the association's years or `None`. -/
theorem has_pet_attribute_error (p : MappedPerson) (pet : Nat) :
    personAttributeNames.contains petAssocsName = false ∧
    has_pet p pet = Except.error petAssocsAttributeError := by
  exact ⟨by decide, rfl⟩
